import Mathlib

/-!
Verification of `app-openapiV2/2_ApplyRelatedMetadata.py`: a script that scans
an OpenAPI specification for schemas carrying the `x-related-objects` vendor
extension and augments the corresponding generated Java model files (via the
external JavaParser library) with relationship fields, accessors, annotations
and support imports.

The embedding is shallow: Python dictionaries/JSON values become an inductive
`JSON` type with Python's access semantics (`KeyError`, `TypeError`,
`AttributeError` modelled as error values of `PyErr`); the JavaParser
syntax-tree API surface actually used by the script becomes a small Java AST
(`CompilationUnit`, `TypeDecl`, `Member`, ...). The external parser/printer
pair is represented by the `JavaSource` type: a file on disk is either `raw`
text together with the (external) parser's verdict on it, or the `printed`
rendering of a tree, which the external parser parses back to that same tree
(JavaParser's round-trip contract on its own output).
-/

/-- JSON values as produced by `json.load`. Object fields are kept in
insertion order; `json.load` never produces duplicate keys. -/
inductive JSON where
  | null : JSON
  | bool (b : Bool) : JSON
  | num (n : Int) : JSON
  | str (s : String) : JSON
  | arr (elems : List JSON) : JSON
  | obj (fields : List (String × JSON)) : JSON

/-- Python exceptions observable in `2_ApplyRelatedMetadata.py`. -/
inductive PyErr where
  | fileNotFound (path : String) : PyErr
  | unparsable : PyErr
  | keyError (key : String) : PyErr
  | typeError : PyErr
  | attributeError : PyErr
  | indexError : PyErr
  | noClassDecl : PyErr
  | assertionError : PyErr
deriving DecidableEq, Repr

/-- Python `d[k]` for a string key: key lookup on a dict (`KeyError` when
absent), `TypeError` on any other value (string/list indices must be
integers; numbers are not subscriptable). -/
def pyGetItem : JSON → String → Except PyErr JSON
  | .obj fields, k =>
    match fields.lookup k with
    | some v => .ok v
    | none => .error (.keyError k)
  | _, _ => .error .typeError

/-- Python `d.get(k, default)`: only dicts have `.get` (`AttributeError`
otherwise). -/
def pyDictGet : JSON → String → JSON → Except PyErr JSON
  | .obj fields, k, dflt =>
    match fields.lookup k with
    | some v => .ok v
    | none => .ok dflt
  | _, _, _ => .error .attributeError

/-- Python `d.items()`: only dicts have `.items` (`AttributeError`
otherwise). -/
def pyItems : JSON → Except PyErr (List (String × JSON))
  | .obj fields => .ok fields
  | _ => .error .attributeError

/-- Python `k in v` for a string `k`: key test on dicts, element test on
lists, substring test on strings, `TypeError` on the rest. -/
def pyContains (k : String) : JSON → Except PyErr Bool
  | .obj fields => .ok (fields.any (fun p => p.1 == k))
  | .arr elems =>
    .ok (elems.any (fun x =>
      match x with
      | .str s => s == k
      | _ => false))
  | .str s => .ok (decide (k.data <:+: s.data))
  | _ => .error .typeError

/-- Python `for x in v`: elements of a list, keys of a dict, one-character
strings of a string, `TypeError` on the rest. -/
def pyIter : JSON → Except PyErr (List JSON)
  | .arr elems => .ok elems
  | .obj fields => .ok (fields.map (fun p => .str p.1))
  | .str s => .ok (s.data.map (fun c => .str (String.singleton c)))
  | _ => .error .typeError

/-- `obj[k]` followed by use of the value as a string. The script hands the
looked-up value straight to a JavaParser API taking a Java `String`
(`getFieldByName`, `addField`, `FieldAccessExpr`); jpype rejects a
non-string argument there, modelled as `TypeError`. -/
def pyGetStr (obj : JSON) (k : String) : Except PyErr String :=
  match pyGetItem obj k with
  | .error e => .error e
  | .ok (.str s) => .ok s
  | .ok _ => .error .typeError

/-- Python `s[0].upper() + s[1:]` (raises `IndexError` on the empty
string). -/
def upperFirst : String → Except PyErr String
  | s =>
    match s.data with
    | [] => .error .indexError
    | c :: cs => .ok (String.mk (c.toUpper :: cs))

/-! ## The JavaParser AST surface used by the script -/

/-- Java modifier keywords used by the script. -/
inductive Keyword where
  | PRIVATE : Keyword
  | PUBLIC : Keyword
deriving DecidableEq, Repr

/-- An expression usable as an annotation member value: the script builds
`FieldAccessExpr(NameExpr scope, field)` values (symbolic enum references);
`StringLiteralExpr` is the alternative it imports but never uses for the
relation pairs. -/
inductive AnnoValue where
  | fieldAccessExpr (scope : String) (field : String) : AnnoValue
  | stringLiteralExpr (value : String) : AnnoValue
deriving DecidableEq, Repr

/-- A Java annotation: marker (`@JsonIgnore`) or normal with member/value
pairs (`@RelatedObject(object = ..., fetchType = ...)`). -/
inductive AnnotationExpr where
  | marker (name : String) : AnnotationExpr
  | normal (name : String) (pairs : List (String × AnnoValue)) : AnnotationExpr
deriving DecidableEq, Repr

/-- Bodies of the two accessor templates the script parses with
`StaticJavaParser.parseBodyDeclaration`. -/
inductive Stmt where
  | returnThisField (field : String) : Stmt
  | assignThisField (field : String) (value : String) : Stmt
deriving DecidableEq, Repr

/-- A Java field declaration (single variable, as `addField` creates). -/
structure FieldDecl where
  modifiers : List Keyword
  annots : List AnnotationExpr
  fieldType : String
  name : String
deriving DecidableEq, Repr

/-- A method parameter. -/
structure Param where
  ptype : String
  pname : String
deriving DecidableEq, Repr

/-- A Java method declaration. -/
structure MethodDecl where
  annots : List AnnotationExpr
  modifiers : List Keyword
  retType : String
  name : String
  params : List Param
  body : Stmt
deriving DecidableEq, Repr

/-- A member of a type declaration. `other` stands for member kinds the
script never creates or inspects (constructors, initializers, nested
types); `getFieldByName` skips them just as it skips methods. -/
inductive Member where
  | field (f : FieldDecl) : Member
  | method (m : MethodDecl) : Member
  | other (descr : String) : Member
deriving DecidableEq, Repr

/-- A top-level type declaration. `isClassOrInterface` records the result of
the script's `isinstance(..., ClassOrInterfaceDeclaration)` test (false for
enum/record/annotation declarations). -/
structure TypeDecl where
  isClassOrInterface : Bool
  name : String
  members : List Member
deriving DecidableEq, Repr

/-- A compilation unit: import list and top-level type declarations.
`cu.getType(0)` is the head of `types`. -/
structure CompilationUnit where
  imports : List String
  types : List TypeDecl
deriving DecidableEq, Repr

/-- JavaParser `ClassOrInterfaceDeclaration.getFieldByName`: the first field
declaration with a variable of that name; methods and other members are
not consulted. -/
def getFieldByName (t : TypeDecl) (n : String) : Option FieldDecl :=
  t.members.findSome? (fun m =>
    match m with
    | .field f => if f.name = n then some f else none
    | _ => none)

/-- A file on disk as the script sees it: raw text with the external
parser's verdict (`none` = `StaticJavaParser.parse` throws), or the
pretty-printer's rendering `str(cu)` of a tree, which the parser reads
back as that tree. -/
inductive JavaSource where
  | raw (text : String) (parseResult : Option CompilationUnit) : JavaSource
  | printed (cu : CompilationUnit) : JavaSource
deriving DecidableEq, Repr

/-- The filesystem: an association from paths to file contents. -/
def FS := List (String × JavaSource)

instance : DecidableEq FS := inferInstanceAs (DecidableEq (List (String × JavaSource)))

/-- `open(path, 'w')`: replace the first binding for `path`, or create the
file. -/
def fsSet : FS → String → JavaSource → FS
  | [], p, v => [(p, v)]
  | (q, w) :: rest, p, v =>
    if q = p then (p, v) :: rest else (q, w) :: fsSet rest p v

/-- Read a file: `none` models `FileNotFoundError`. -/
def fsGet (fs : FS) (p : String) : Option JavaSource :=
  List.lookup p fs

/-- The input handed to the script: the spec file may be absent
(`FileNotFoundError`), fail `json.load` (`JSONDecodeError`), or parse to a
JSON value. -/
inductive SpecFile where
  | missing : SpecFile
  | malformed : SpecFile
  | parsed (j : JSON) : SpecFile

/-- The environment configuration (`OUTPUT_DIR`, `MODEL_PACKAGE`) read at
startup. -/
structure Config where
  OUTPUT_DIR : String
  MODEL_PACKAGE : String

/-! ## `find_schemas_with_related_objects` (lines 45-78) -/

/-- The body of the `try` block of `find_schemas_with_related_objects`:
`spec.get('components', {}).get('schemas', {})`, then collect every schema
entry containing the `x-related-objects` key, paired with
`{'x-related-objects': raw}`. Any `PyErr` is what the `except` clauses
catch. -/
def scanSchemas (entries : List (String × JSON)) (acc : List (String × JSON)) :
    Except PyErr (List (String × JSON)) :=
  match entries with
  | [] => .ok acc
  | (schema_name, schema_def) :: rest =>
    match pyContains "x-related-objects" schema_def with
    | .error e => .error e
    | .ok false => scanSchemas rest acc
    | .ok true =>
      match pyGetItem schema_def "x-related-objects" with
      | .error e => .error e
      | .ok v =>
        scanSchemas rest (acc ++ [(schema_name, JSON.obj [("x-related-objects", v)])])

/-- The `try` body of `find_schemas_with_related_objects` on a parsed
document. -/
def scanCore (spec : JSON) : Except PyErr (List (String × JSON)) :=
  match pyDictGet spec "components" (.obj []) with
  | .error e => .error e
  | .ok components =>
    match pyDictGet components "schemas" (.obj []) with
    | .error e => .error e
    | .ok schemas =>
      match pyItems schemas with
      | .error e => .error e
      | .ok entries => scanSchemas entries []

/-- `find_schemas_with_related_objects` (lines 45-78): returns `None` when
the file is missing, the JSON is invalid, or any exception escapes the
loop; otherwise the mapping of schema names to their raw
`x-related-objects` wrapper. -/
def find_schemas_with_related_objects : SpecFile → Option (List (String × JSON))
  | .missing => none
  | .malformed => none
  | .parsed spec =>
    match scanCore spec with
    | .ok m => some m
    | .error _ => none

/-! ## `get_java_file_path` (lines 80-83) -/

/-- Python `MODEL_PACKAGE.replace('.', '/')`: the pattern is a single
character, so the replacement is a character-wise map. -/
def dotsToSlashes (s : String) : String :=
  String.mk (s.data.map (fun c => if c = '.' then '/' else c))

/-- `get_java_file_path` (lines 80-83): `os.path.join(OUTPUT_DIR,
"src/main/java", MODEL_PACKAGE.replace('.', '/'), schema_name + ".java")`
for relative components. -/
def get_java_file_path (cfg : Config) (schema_name : String) : String :=
  cfg.OUTPUT_DIR ++ "/src/main/java/" ++ dotsToSlashes cfg.MODEL_PACKAGE
    ++ "/" ++ schema_name ++ ".java"

/-! ## `update_java_file` (lines 90-183) -/

/-- The five support imports (lines 100-106). -/
def imports_to_add : List String :=
  ["com.sc.banking.common.annotation.RelatedObject",
   "com.sc.banking.common.enums.ObjectType",
   "com.sc.banking.common.enums.FetchType",
   "com.fasterxml.jackson.annotation.JsonIgnore",
   "java.util.List"]

/-- Lines 107-109: add each import that is not already present
(`cu.addImport` appends at the end of the import list). -/
def addMissingImports (cu : CompilationUnit) : List String → CompilationUnit
  | [] => cu
  | imp :: rest =>
    if cu.imports.contains imp then addMissingImports cu rest
    else addMissingImports { cu with imports := cu.imports ++ [imp] } rest

/-- `create_field_access_expr` (lines 85-88). -/
def create_field_access_expr (scope_name : String) (field_name : String) : AnnoValue :=
  .fieldAccessExpr scope_name field_name

/-- Lines 122-126: `List<base>` exactly when `relation == 'OneToMany'`
(a Python `==` against the raw value from `obj.get`), else the bare base
type. -/
def field_type_of (relation : JSON) (base_type : String) : String :=
  match relation with
  | .str s => if s = "OneToMany" then "List<" ++ base_type ++ ">" else base_type
  | _ => base_type

/-- The three members synthesized for one descriptor (lines 132-171): the
private annotated field, and the parse results of the getter and setter
templates handed to `StaticJavaParser.parseBodyDeclaration`. -/
def synthMembers (field_name field_type objectType fetchType cap : String) : List Member :=
  [.field
    { modifiers := [.PRIVATE],
      annots :=
        [.marker "JsonIgnore",
         .normal "RelatedObject"
           [("object", create_field_access_expr "ObjectType" objectType),
            ("fetchType", create_field_access_expr "FetchType" fetchType)]],
      fieldType := field_type,
      name := field_name },
   .method
    { annots := [.marker "JsonIgnore"],
      modifiers := [.PUBLIC],
      retType := field_type,
      name := "get" ++ cap,
      params := [],
      body := .returnThisField field_name },
   .method
    { annots := [.marker "JsonIgnore"],
      modifiers := [.PUBLIC],
      retType := "void",
      name := "set" ++ cap,
      params := [{ ptype := field_type, pname := field_name }],
      body := .assignThisField field_name field_name }]

/-- One iteration of the descriptor loop (lines 117-173) acting on the main
class. The second component of the state materializes the spec's
`skippedExisting` observation: the names for which the
`existing_field.isPresent()` branch was taken (the script itself records a
skip only by printing nothing). The `addField` call (line 132) builds
`SimpleName(field_name)`, whose identifier setter runs `assertNonEmpty`
and throws the library's `AssertionError` on an empty name — before
`objectType`/`fetchType` are read and before the getter-name derivation;
type strings are passed through to `addField` as-is. -/
def processDescriptor (st : TypeDecl × List String) (obj : JSON) :
    Except PyErr (TypeDecl × List String) :=
  match pyGetStr obj "name" with
  | .error e => .error e
  | .ok field_name =>
    match pyGetStr obj "type" with
    | .error e => .error e
    | .ok base_type =>
      match pyDictGet obj "relation" (.str "OneToOne") with
      | .error e => .error e
      | .ok relation =>
        match getFieldByName st.1 field_name with
        | some _ => .ok (st.1, st.2 ++ [field_name])
        | none =>
          if field_name = "" then .error .assertionError
          else
            match pyGetStr obj "objectType" with
            | .error e => .error e
            | .ok objectType =>
              match pyGetStr obj "fetchType" with
              | .error e => .error e
              | .ok fetchType =>
                match upperFirst field_name with
                | .error e => .error e
                | .ok cap =>
                  .ok ({ st.1 with
                          members := st.1.members ++
                            synthMembers field_name (field_type_of relation base_type)
                              objectType fetchType cap },
                       st.2)

/-- The descriptor loop over all entries of `related_objects`. -/
def processAll (st : TypeDecl × List String) : List JSON →
    Except PyErr (TypeDecl × List String)
  | [] => .ok st
  | obj :: rest =>
    match processDescriptor st obj with
    | .error e => .error e
    | .ok st' => processAll st' rest

/-- The tree mutation performed by `update_java_file` between parsing and
writing (lines 99-173): ensure the support imports, locate `getType(0)`
(raising when there is no type or it is not a class/interface
declaration), then run the descriptor loop. Returns the mutated unit and
the skipped-existing names. -/
def applyRelated (cu : CompilationUnit) (related_objects : JSON) :
    Except PyErr (CompilationUnit × List String) :=
  match (addMissingImports cu imports_to_add).types with
  | [] => .error .indexError
  | main_class :: rest =>
    if main_class.isClassOrInterface then
      match pyIter related_objects with
      | .error e => .error e
      | .ok objs =>
        match processAll (main_class, []) objs with
        | .error e => .error e
        | .ok st =>
          .ok ({ addMissingImports cu imports_to_add with types := st.1 :: rest }, st.2)
    else .error .noClassDecl

/-- `update_java_file` (lines 90-183): read the file (`FileNotFoundError`
when absent), parse it (`UnparsableSource` when the external parser
rejects the raw text), mutate the tree, and write `str(cu)` back. On any
error the function prints and re-raises; the file is not written. -/
def update_java_file (fs : FS) (file_path : String) (related_objects : JSON) :
    Except PyErr FS :=
  match fsGet fs file_path with
  | none => .error (.fileNotFound file_path)
  | some (.raw _ none) => .error .unparsable
  | some (.raw _ (some cu)) =>
    match applyRelated cu related_objects with
    | .error e => .error e
    | .ok res => .ok (fsSet fs file_path (.printed res.1))
  | some (.printed cu) =>
    match applyRelated cu related_objects with
    | .error e => .error e
    | .ok res => .ok (fsSet fs file_path (.printed res.1))

/-! ## `main` (lines 185-191) -/

/-- The loop of `main`: each schema's `details['x-related-objects']` is
extracted and `update_java_file` invoked; any exception propagates (there
is no per-schema handler), so the run stops at the first failure, keeping
the files written so far. -/
def runSchemas (cfg : Config) (fs : FS) :
    List (String × JSON) → FS × Option PyErr
  | [] => (fs, none)
  | (schema_name, details) :: rest =>
    match pyGetItem details "x-related-objects" with
    | .error e => (fs, some e)
    | .ok ro =>
      match update_java_file fs (get_java_file_path cfg schema_name) ro with
      | .error e => (fs, some e)
      | .ok fs2 => runSchemas cfg fs2 rest

/-- `main` (lines 185-191): scan the spec; when the result is `None` or the
empty dict the loop body never runs; otherwise process the schemas in
order. The second component is the exception (if any) that aborted the
run. -/
def mainRun (cfg : Config) (spec_file : SpecFile) (fs : FS) : FS × Option PyErr :=
  match find_schemas_with_related_objects spec_file with
  | none => (fs, none)
  | some schemas => runSchemas cfg fs schemas

/-! ## Helper lemmas -/

theorem pyGetStr_ok_obj {obj : JSON} {k s : String} (h : pyGetStr obj k = .ok s) :
    ∃ fields, obj = .obj fields := by
  cases obj <;> first
    | exact ⟨_, rfl⟩
    | simp [pyGetStr, pyGetItem] at h

theorem pyDictGet_obj_ok (fields : List (String × JSON)) (k : String) (d : JSON) :
    ∃ v, pyDictGet (.obj fields) k d = .ok v := by
  cases h : List.lookup k fields with
  | none => exact ⟨d, by simp [pyDictGet, h]⟩
  | some v => exact ⟨v, by simp [pyDictGet, h]⟩

theorem getFieldByName_members (b : Bool) (nm : String) (ms : List Member) (n : String) :
    getFieldByName ⟨b, nm, ms⟩ n = ms.findSome? (fun m =>
      match m with
      | .field f => if f.name = n then some f else none
      | _ => none) := rfl

theorem getFieldByName_append_left {t : TypeDecl} {n : String} (new : List Member)
    (h : (getFieldByName t n).isSome) :
    (getFieldByName { t with members := t.members ++ new } n).isSome := by
  cases t with
  | mk b nm ms =>
    simp only [getFieldByName, List.findSome?_append] at *
    cases hh : ms.findSome? (fun m =>
      match m with
      | .field f => if f.name = n then some f else none
      | _ => none) with
    | none => simp [hh] at h
    | some f => simp [hh]

theorem getFieldByName_synth (t : TypeDecl) (n ft ot fe cap : String) :
    (getFieldByName { t with members := t.members ++ synthMembers n ft ot fe cap } n).isSome := by
  cases t with
  | mk b nm ms =>
    simp only [getFieldByName, List.findSome?_append, synthMembers]
    cases hh : ms.findSome? (fun m =>
      match m with
      | .field f => if f.name = n then some f else none
      | _ => none) with
    | none => simp [hh, List.findSome?]
    | some f => simp [hh]

theorem processDescriptor_skip (obj : JSON) {n t : String} {mc : TypeDecl} (sk : List String)
    (hn : pyGetStr obj "name" = .ok n) (ht : pyGetStr obj "type" = .ok t)
    (hf : (getFieldByName mc n).isSome) :
    processDescriptor (mc, sk) obj = .ok (mc, sk ++ [n]) := by
  obtain ⟨fields, rfl⟩ := pyGetStr_ok_obj hn
  obtain ⟨rv, hrel⟩ := pyDictGet_obj_ok fields "relation" (.str "OneToOne")
  obtain ⟨f, hf'⟩ := Option.isSome_iff_exists.mp hf
  simp [processDescriptor, hn, ht, hrel, hf']

theorem processDescriptor_ok_facts {st st' : TypeDecl × List String} {obj : JSON}
    (h : processDescriptor st obj = .ok st') :
    ∃ n t, pyGetStr obj "name" = .ok n ∧ pyGetStr obj "type" = .ok t ∧
      (∃ new, st'.1 = { st.1 with members := st.1.members ++ new }) ∧
      (getFieldByName st'.1 n).isSome := by
  unfold processDescriptor at h
  split at h
  · simp at h
  rename_i field_name hn
  split at h
  · simp at h
  rename_i base_type ht
  split at h
  · simp at h
  rename_i relation hrel
  split at h
  · rename_i f hf
    rw [Except.ok.injEq] at h
    refine ⟨field_name, base_type, hn, ht, ⟨[], ?_⟩, ?_⟩
    · rw [← h]; simp
    · rw [← h]; simp [hf]
  · rename_i hf
    split at h
    · simp at h
    rename_i hne
    split at h
    · simp at h
    rename_i objectType hot
    split at h
    · simp at h
    rename_i fetchType hfe
    split at h
    · simp at h
    rename_i cap hcap
    rw [Except.ok.injEq] at h
    refine ⟨field_name, base_type, hn, ht,
      ⟨synthMembers field_name (field_type_of relation base_type) objectType fetchType cap, ?_⟩, ?_⟩
    · rw [← h]
    · rw [← h]; exact getFieldByName_synth _ _ _ _ _ _

theorem processAll_extends : ∀ (objs : List JSON) (st st' : TypeDecl × List String),
    processAll st objs = .ok st' →
    ∃ new, st'.1 = { st.1 with members := st.1.members ++ new }
  | [], st, st', h => by
    unfold processAll at h
    rw [Except.ok.injEq] at h
    exact ⟨[], by rw [← h]; simp⟩
  | obj :: rest, st, st', h => by
    unfold processAll at h
    split at h
    · simp at h
    rename_i st1 h1
    obtain ⟨n, t, hn, ht, ⟨new1, e1⟩, hf⟩ := processDescriptor_ok_facts h1
    obtain ⟨new2, e2⟩ := processAll_extends rest st1 st' h
    exact ⟨new1 ++ new2, by rw [e2, e1]; simp⟩

theorem processAll_mono : ∀ (objs : List JSON) (st st' : TypeDecl × List String) (n : String),
    processAll st objs = .ok st' →
    (getFieldByName st.1 n).isSome → (getFieldByName st'.1 n).isSome
  | [], st, st', n, h, hf => by
    unfold processAll at h
    rw [Except.ok.injEq] at h
    rw [← h]; exact hf
  | obj :: rest, st, st', n, h, hf => by
    unfold processAll at h
    split at h
    · simp at h
    rename_i st1 h1
    obtain ⟨n', t', hn', ht', ⟨new1, e1⟩, hf'⟩ := processDescriptor_ok_facts h1
    have hf1 : (getFieldByName st1.1 n).isSome := by
      rw [e1]; exact getFieldByName_append_left new1 hf
    exact processAll_mono rest st1 st' n h hf1

theorem processAll_post : ∀ (objs : List JSON) (st st' : TypeDecl × List String),
    processAll st objs = .ok st' →
    ∀ obj ∈ objs, ∃ n t, pyGetStr obj "name" = .ok n ∧ pyGetStr obj "type" = .ok t ∧
      (getFieldByName st'.1 n).isSome
  | [], _, _, _, obj, hmem => by simp at hmem
  | o :: rest, st, st', h, obj, hmem => by
    unfold processAll at h
    split at h
    · simp at h
    rename_i st1 h1
    rcases List.mem_cons.mp hmem with rfl | hmem'
    · obtain ⟨n, t, hn, ht, _, hf⟩ := processDescriptor_ok_facts h1
      exact ⟨n, t, hn, ht, processAll_mono rest st1 st' n h hf⟩
    · exact processAll_post rest st1 st' h obj hmem'

theorem processAll_skip_all : ∀ (objs : List JSON) (mc : TypeDecl) (sk : List String),
    (∀ obj ∈ objs, ∃ n t, pyGetStr obj "name" = .ok n ∧ pyGetStr obj "type" = .ok t ∧
      (getFieldByName mc n).isSome) →
    ∃ sk', processAll (mc, sk) objs = .ok (mc, sk ++ sk')
  | [], mc, sk, _ => ⟨[], by simp [processAll]⟩
  | obj :: rest, mc, sk, hyp => by
    obtain ⟨n, t, hn, ht, hf⟩ := hyp obj (List.mem_cons_self obj rest)
    have hstep := processDescriptor_skip obj sk hn ht hf
    obtain ⟨sk', hrest⟩ := processAll_skip_all rest mc (sk ++ [n])
      (fun o ho => hyp o (List.mem_cons_of_mem obj ho))
    exact ⟨[n] ++ sk', by unfold processAll; rw [hstep]; simp [hrest, List.append_assoc]⟩

theorem addMissingImports_types : ∀ (l : List String) (cu : CompilationUnit),
    (addMissingImports cu l).types = cu.types
  | [], cu => rfl
  | imp :: rest, cu => by
    unfold addMissingImports
    split
    · exact addMissingImports_types rest cu
    · exact addMissingImports_types rest _

theorem addMissingImports_extends : ∀ (l : List String) (cu : CompilationUnit),
    ∃ extra, (addMissingImports cu l).imports = cu.imports ++ extra
  | [], cu => ⟨[], by simp [addMissingImports]⟩
  | imp :: rest, cu => by
    unfold addMissingImports
    split
    · exact addMissingImports_extends rest cu
    · obtain ⟨extra, he⟩ := addMissingImports_extends rest
        { cu with imports := cu.imports ++ [imp] }
      exact ⟨[imp] ++ extra, by rw [he]; simp⟩

theorem addMissingImports_mem : ∀ (l : List String) (cu : CompilationUnit) (imp : String),
    imp ∈ l → imp ∈ (addMissingImports cu l).imports
  | [], _, _, hmem => by simp at hmem
  | i :: rest, cu, imp, hmem => by
    unfold addMissingImports
    rcases List.mem_cons.mp hmem with rfl | hmem'
    · split
      · rename_i hc
        obtain ⟨extra, he⟩ := addMissingImports_extends rest cu
        rw [he]
        exact List.mem_append_left _ (by simpa using hc)
      · obtain ⟨extra, he⟩ := addMissingImports_extends rest
          { cu with imports := cu.imports ++ [imp] }
        rw [he]; simp
    · split
      · exact addMissingImports_mem rest cu imp hmem'
      · exact addMissingImports_mem rest _ imp hmem'

theorem addMissingImports_id : ∀ (l : List String) (cu : CompilationUnit),
    (∀ imp ∈ l, imp ∈ cu.imports) → addMissingImports cu l = cu
  | [], cu, _ => rfl
  | i :: rest, cu, hyp => by
    unfold addMissingImports
    split
    · exact addMissingImports_id rest cu (fun imp h => hyp imp (List.mem_cons_of_mem i h))
    · rename_i hc
      exact absurd (by simpa using hyp i (List.mem_cons_self i rest)) (by simpa using hc)

theorem fsGet_fsSet : ∀ (fs : FS) (p : String) (v : JavaSource),
    fsGet (fsSet fs p v) p = some v
  | [], p, v => by simp [fsSet, fsGet, List.lookup]
  | (q, w) :: rest, p, v => by
    unfold fsSet
    split
    · simp [fsGet, List.lookup]
    · rename_i hqp
      have hbeq : (p == q) = false := by
        simpa using fun h : p = q => hqp h.symm
      simp only [fsGet, List.lookup, hbeq]
      exact fsGet_fsSet rest p v

theorem fsSet_self : ∀ (fs : FS) (p : String) (v : JavaSource),
    fsGet fs p = some v → fsSet fs p v = fs
  | [], p, v, h => by simp [fsGet, List.lookup] at h
  | (q, w) :: rest, p, v, h => by
    unfold fsSet
    split
    · rename_i hqp
      subst hqp
      have hwv : w = v := by simpa [fsGet, List.lookup] using h
      rw [hwv]
    · rename_i hqp
      have hbeq : (p == q) = false := by
        simpa using fun hh : p = q => hqp hh.symm
      simp only [fsGet, List.lookup, hbeq] at h
      rw [fsSet_self rest p v h]

theorem applyRelated_ok_elim {cu : CompilationUnit} {ro : JSON}
    {out : CompilationUnit × List String} (h : applyRelated cu ro = .ok out) :
    ∃ mc rest objs st,
      (addMissingImports cu imports_to_add).types = mc :: rest ∧
      mc.isClassOrInterface = true ∧
      pyIter ro = .ok objs ∧
      processAll (mc, []) objs = .ok st ∧
      out = ({ addMissingImports cu imports_to_add with types := st.1 :: rest }, st.2) := by
  unfold applyRelated at h
  split at h
  · simp at h
  rename_i mc rest htypes
  split at h
  · rename_i hclass
    split at h
    · simp at h
    rename_i objs hiter
    split at h
    · simp at h
    rename_i st hall
    rw [Except.ok.injEq] at h
    exact ⟨mc, rest, objs, st, htypes, hclass, hiter, hall, h.symm⟩
  · simp at h

theorem applyRelated_intro (cu : CompilationUnit) (ro : JSON) (mc : TypeDecl)
    (rest : List TypeDecl) (objs : List JSON) (st : TypeDecl × List String)
    (h2 : (addMissingImports cu imports_to_add).types = mc :: rest)
    (h3 : mc.isClassOrInterface = true)
    (h4 : pyIter ro = .ok objs)
    (h5 : processAll (mc, []) objs = .ok st) :
    applyRelated cu ro =
      .ok ({ addMissingImports cu imports_to_add with types := st.1 :: rest }, st.2) := by
  unfold applyRelated
  rw [h2]
  simp [h3, h4, h5]

theorem CompilationUnit_eta {cu : CompilationUnit} {ts : List TypeDecl} (h : cu.types = ts) :
    { cu with types := ts } = cu := by
  cases cu
  cases h
  rfl

theorem applyRelated_idem {cu : CompilationUnit} {ro : JSON}
    {out : CompilationUnit × List String} (h : applyRelated cu ro = .ok out) :
    ∃ sk₂, applyRelated out.1 ro = .ok (out.1, sk₂) := by
  obtain ⟨mc, rest, objs, st, htypes, hclass, hiter, hall, hout⟩ := applyRelated_ok_elim h
  have hout1 : out.1 = { addMissingImports cu imports_to_add with types := st.1 :: rest } := by
    rw [hout]
  have himports : out.1.imports = (addMissingImports cu imports_to_add).imports := by
    rw [hout1]
  have htypes1 : out.1.types = st.1 :: rest := by rw [hout1]
  have hclass1 : st.1.isClassOrInterface = true := by
    obtain ⟨new, he⟩ := processAll_extends objs (mc, []) st hall
    rw [he]
    exact hclass
  have hall1 : ∀ imp ∈ imports_to_add, imp ∈ out.1.imports := by
    intro imp hmem
    rw [himports]
    exact addMissingImports_mem imports_to_add cu imp hmem
  have hid : addMissingImports out.1 imports_to_add = out.1 :=
    addMissingImports_id imports_to_add out.1 hall1
  have hpost := processAll_post objs (mc, []) st hall
  obtain ⟨sk₂, hskip⟩ := processAll_skip_all objs st.1 [] (fun obj hmem => hpost obj hmem)
  refine ⟨sk₂, ?_⟩
  have := applyRelated_intro out.1 ro st.1 rest objs (st.1, sk₂)
    (by rw [hid, htypes1]) hclass1 hiter (by simpa using hskip)
  rw [this, hid]
  rw [Except.ok.injEq, Prod.mk.injEq]
  exact ⟨CompilationUnit_eta htypes1, rfl⟩

/-! ## Claim theorems -/

/-- C1. Augmentation is idempotent: when a first run of `update_java_file`
on a file succeeds, running it again on the rewritten file with the same
descriptors succeeds and leaves the file identical — the written text is
`str(cu)` of the same tree, so `augment(augment(S, D).text, D).text ==
augment(S, D).text`. -/
theorem update_java_file_idempotent (fs : FS) (p : String) (ro : JSON) (fs₁ : FS)
    (h : update_java_file fs p ro = .ok fs₁) :
    update_java_file fs₁ p ro = .ok fs₁ := by
  unfold update_java_file at h
  split at h
  · simp at h
  · simp at h
  · rename_i t cu heq
    split at h
    · simp at h
    rename_i res hres
    rw [Except.ok.injEq] at h
    obtain ⟨sk₂, hidem⟩ := applyRelated_idem hres
    have hget : fsGet fs₁ p = some (.printed res.1) := by
      rw [← h]; exact fsGet_fsSet fs p _
    simp only [update_java_file, hget, hidem]
    rw [Except.ok.injEq]
    exact fsSet_self fs₁ p _ hget
  · rename_i cu heq
    split at h
    · simp at h
    rename_i res hres
    rw [Except.ok.injEq] at h
    obtain ⟨sk₂, hidem⟩ := applyRelated_idem hres
    have hget : fsGet fs₁ p = some (.printed res.1) := by
      rw [← h]; exact fsGet_fsSet fs p _
    simp only [update_java_file, hget, hidem]
    rw [Except.ok.injEq]
    exact fsSet_self fs₁ p _ hget

/-! ## Concrete instances for witnesses and counterexamples -/

/-- A raw descriptor as in the spec's scenario: `{name: "customer", type:
"Customer", objectType: "CUSTOMER", fetchType: "LAZY", relation:
"OneToOne"}`. -/
def descCustomer : JSON :=
  .obj [("name", .str "customer"), ("type", .str "Customer"),
        ("objectType", .str "CUSTOMER"), ("fetchType", .str "LAZY"),
        ("relation", .str "OneToOne")]

/-- A one-descriptor `x-related-objects` list. -/
def roCustomer : JSON := .arr [descCustomer]

/-- An `Account` class with one pre-existing member and no `customer`
field. -/
def accountClass : TypeDecl := ⟨true, "Account", [.other "existing"]⟩

/-- The parsed `Account.java` before augmentation. -/
def accountCU : CompilationUnit := ⟨[], [accountClass]⟩

/-- A filesystem holding only `Account.java`. -/
def accountFS : FS := [("Account.java", .raw "class Account" (some accountCU))]

/-- The three members synthesized for `descCustomer`. -/
def customerMembers : List Member :=
  [.field
    { modifiers := [.PRIVATE],
      annots :=
        [.marker "JsonIgnore",
         .normal "RelatedObject"
           [("object", .fieldAccessExpr "ObjectType" "CUSTOMER"),
            ("fetchType", .fieldAccessExpr "FetchType" "LAZY")]],
      fieldType := "Customer",
      name := "customer" },
   .method
    { annots := [.marker "JsonIgnore"],
      modifiers := [.PUBLIC],
      retType := "Customer",
      name := "getCustomer",
      params := [],
      body := .returnThisField "customer" },
   .method
    { annots := [.marker "JsonIgnore"],
      modifiers := [.PUBLIC],
      retType := "void",
      name := "setCustomer",
      params := [{ ptype := "Customer", pname := "customer" }],
      body := .assignThisField "customer" "customer" }]

/-- `Account` after one augmentation pass. -/
def augmentedAccountCU : CompilationUnit :=
  ⟨imports_to_add, [⟨true, "Account", [.other "existing"] ++ customerMembers⟩]⟩

/-- The filesystem after one augmentation pass. -/
def augmentedAccountFS : FS := [("Account.java", .printed augmentedAccountCU)]

/-- Witness for C1: a concrete successful run, and the theorem applied to
it — the second run reproduces the file exactly. -/
theorem update_java_file_idempotent_witness :
    update_java_file accountFS "Account.java" roCustomer = .ok augmentedAccountFS ∧
    update_java_file augmentedAccountFS "Account.java" roCustomer = .ok augmentedAccountFS :=
  ⟨rfl, update_java_file_idempotent accountFS "Account.java" roCustomer augmentedAccountFS rfl⟩

/-- C6. Non-destructive augmentation: on success every pre-existing member
of the primary type is still present, unchanged, and in its original
relative position (the old member list is a prefix of the new one); the
other type declarations are untouched and pre-existing imports keep their
positions. -/
theorem augment_nondestructive (cu : CompilationUnit) (ro : JSON)
    (out : CompilationUnit × List String) (h : applyRelated cu ro = .ok out) :
    ∃ mc rest new extra,
      cu.types = mc :: rest ∧
      out.1.types = { mc with members := mc.members ++ new } :: rest ∧
      out.1.imports = cu.imports ++ extra := by
  obtain ⟨mc, rest, objs, st, htypes, hclass, hiter, hall, hout⟩ := applyRelated_ok_elim h
  obtain ⟨new, he⟩ := processAll_extends objs (mc, []) st hall
  obtain ⟨extra, hei⟩ := addMissingImports_extends imports_to_add cu
  refine ⟨mc, rest, new, extra, ?_, ?_, ?_⟩
  · rw [← addMissingImports_types imports_to_add cu]
    exact htypes
  · rw [hout]
    simpa using he
  · rw [hout]
    simpa using hei

/-- Witness for C6 at the concrete `Account` run. -/
theorem augment_nondestructive_witness :
    applyRelated accountCU roCustomer = .ok (augmentedAccountCU, []) ∧
    ∃ mc rest new extra,
      accountCU.types = mc :: rest ∧
      (augmentedAccountCU, ([] : List String)).1.types =
        { mc with members := mc.members ++ new } :: rest ∧
      (augmentedAccountCU, ([] : List String)).1.imports = accountCU.imports ++ extra :=
  ⟨rfl, augment_nondestructive accountCU roCustomer (augmentedAccountCU, []) rfl⟩

theorem processDescriptor_add (st : TypeDecl × List String) (obj : JSON)
    (n t ot ft cap : String) (rv : JSON)
    (hn : pyGetStr obj "name" = .ok n) (ht : pyGetStr obj "type" = .ok t)
    (hrel : pyDictGet obj "relation" (.str "OneToOne") = .ok rv)
    (hf : getFieldByName st.1 n = none)
    (hot : pyGetStr obj "objectType" = .ok ot)
    (hft : pyGetStr obj "fetchType" = .ok ft)
    (hcap : upperFirst n = .ok cap) :
    processDescriptor st obj = .ok
      ({ st.1 with members := st.1.members ++
        [.field { modifiers := [.PRIVATE],
                  annots :=
                    [.marker "JsonIgnore",
                     .normal "RelatedObject"
                       [("object", AnnoValue.fieldAccessExpr "ObjectType" ot),
                        ("fetchType", AnnoValue.fieldAccessExpr "FetchType" ft)]],
                  fieldType := field_type_of rv t,
                  name := n },
         .method { annots := [.marker "JsonIgnore"],
                   modifiers := [.PUBLIC],
                   retType := field_type_of rv t,
                   name := "get" ++ cap,
                   params := [],
                   body := .returnThisField n },
         .method { annots := [.marker "JsonIgnore"],
                   modifiers := [.PUBLIC],
                   retType := "void",
                   name := "set" ++ cap,
                   params := [{ ptype := field_type_of rv t, pname := n }],
                   body := .assignThisField n n }] }, st.2) := by
  have hne : ¬(n = "") := by
    intro he
    rw [he] at hcap
    simp [upperFirst] at hcap
  simp [processDescriptor, hn, ht, hrel, hf, hne, hot, hft, hcap, synthMembers,
    create_field_access_expr]

/-- C5. Member synthesis: a descriptor that is not skipped appends, after
all existing members and in this order, exactly three members: a private
field of the declared type carrying the `@JsonIgnore` marker and a
`@RelatedObject` annotation whose `object` and `fetchType` arguments are
`FieldAccessExpr` symbolic enum references (not string literals); a
`@JsonIgnore` getter `get<CapitalizedName>` returning the declared type;
and a `@JsonIgnore` setter `set<CapitalizedName>` taking the declared
type. -/
theorem member_synthesis (st : TypeDecl × List String) (obj : JSON)
    (n t ot ft cap : String) (rv : JSON)
    (hn : pyGetStr obj "name" = .ok n) (ht : pyGetStr obj "type" = .ok t)
    (hrel : pyDictGet obj "relation" (.str "OneToOne") = .ok rv)
    (hf : getFieldByName st.1 n = none)
    (hot : pyGetStr obj "objectType" = .ok ot)
    (hft : pyGetStr obj "fetchType" = .ok ft)
    (hcap : upperFirst n = .ok cap) :
    processDescriptor st obj = .ok
      ({ st.1 with members := st.1.members ++
        [.field { modifiers := [.PRIVATE],
                  annots :=
                    [.marker "JsonIgnore",
                     .normal "RelatedObject"
                       [("object", AnnoValue.fieldAccessExpr "ObjectType" ot),
                        ("fetchType", AnnoValue.fieldAccessExpr "FetchType" ft)]],
                  fieldType := field_type_of rv t,
                  name := n },
         .method { annots := [.marker "JsonIgnore"],
                   modifiers := [.PUBLIC],
                   retType := field_type_of rv t,
                   name := "get" ++ cap,
                   params := [],
                   body := .returnThisField n },
         .method { annots := [.marker "JsonIgnore"],
                   modifiers := [.PUBLIC],
                   retType := "void",
                   name := "set" ++ cap,
                   params := [{ ptype := field_type_of rv t, pname := n }],
                   body := .assignThisField n n }] }, st.2) :=
  processDescriptor_add st obj n t ot ft cap rv hn ht hrel hf hot hft hcap

/-- Witness for C5 at the concrete `customer` descriptor. -/
theorem member_synthesis_witness :
    processDescriptor (accountClass, []) descCustomer =
      .ok (⟨true, "Account", [.other "existing"] ++ customerMembers⟩, []) := by
  have := member_synthesis (accountClass, []) descCustomer
    "customer" "Customer" "CUSTOMER" "LAZY" "Customer" (.str "OneToOne")
    rfl rfl rfl rfl rfl rfl rfl
  simpa [accountClass, customerMembers, field_type_of] using this

theorem list_wrap_ne (t : String) : "List<" ++ t ++ ">" ≠ t := by
  intro h
  have hlen := congrArg String.length h
  rw [String.length_append, String.length_append] at hlen
  have h5 : ("List<" : String).length = 5 := rfl
  have h1 : (">" : String).length = 1 := rfl
  omega

/-- C4. Cardinality mapping: for a descriptor that produces a field, the
declared type is the list container around the target type exactly when
the raw `relation` value (`obj.get('relation', 'OneToOne')`) equals the
string `"OneToMany"`; every other value — `"OneToOne"`, `"ManyToOne"`,
unrecognized strings, non-strings, or the default used when the key is
absent — yields the bare target type. -/
theorem cardinality_mapping (st : TypeDecl × List String) (obj : JSON)
    (n t ot ft cap : String) (rv : JSON)
    (hn : pyGetStr obj "name" = .ok n) (ht : pyGetStr obj "type" = .ok t)
    (hrel : pyDictGet obj "relation" (.str "OneToOne") = .ok rv)
    (hf : getFieldByName st.1 n = none)
    (hot : pyGetStr obj "objectType" = .ok ot)
    (hft : pyGetStr obj "fetchType" = .ok ft)
    (hcap : upperFirst n = .ok cap) :
    ∃ fld g s2,
      processDescriptor st obj = .ok
        ({ st.1 with
            members := st.1.members ++ [.field fld, .method g, .method s2] }, st.2) ∧
      fld.name = n ∧
      (fld.fieldType = "List<" ++ t ++ ">" ↔ rv = .str "OneToMany") ∧
      (rv ≠ .str "OneToMany" → fld.fieldType = t) := by
  refine ⟨_, _, _, processDescriptor_add st obj n t ot ft cap rv hn ht hrel hf hot hft hcap,
    rfl, ?_, ?_⟩
  · constructor
    · intro h
      cases rv with
      | str s =>
        by_cases hs : s = "OneToMany"
        · rw [hs]
        · rw [field_type_of] at h
          simp only [hs, if_false] at h
          exact absurd h.symm (list_wrap_ne t)
      | null => exact absurd ((by simpa [field_type_of] using h) : t = _).symm (list_wrap_ne t)
      | bool b => exact absurd ((by simpa [field_type_of] using h) : t = _).symm (list_wrap_ne t)
      | num m => exact absurd ((by simpa [field_type_of] using h) : t = _).symm (list_wrap_ne t)
      | arr xs => exact absurd ((by simpa [field_type_of] using h) : t = _).symm (list_wrap_ne t)
      | obj fs => exact absurd ((by simpa [field_type_of] using h) : t = _).symm (list_wrap_ne t)
    · intro h
      rw [h]
      simp [field_type_of]
  · intro hne
    cases rv <;> simp_all [field_type_of]

/-- Witness for C4 at a concrete `OneToMany` descriptor. -/
theorem cardinality_mapping_witness :
    ∃ fld g s2,
      processDescriptor (accountClass, [])
        (.obj [("name", .str "orders"), ("type", .str "Order"),
               ("objectType", .str "ORDER"), ("fetchType", .str "EAGER"),
               ("relation", .str "OneToMany")]) = .ok
        ({ (accountClass, ([] : List String)).1 with
            members := (accountClass, ([] : List String)).1.members ++
              [.field fld, .method g, .method s2] }, ([] : List String)) ∧
      fld.name = "orders" ∧
      (fld.fieldType = "List<" ++ "Order" ++ ">" ↔ JSON.str "OneToMany" = .str "OneToMany") ∧
      (JSON.str "OneToMany" ≠ .str "OneToMany" → fld.fieldType = "Order") :=
  cardinality_mapping (accountClass, [])
    (.obj [("name", .str "orders"), ("type", .str "Order"),
           ("objectType", .str "ORDER"), ("fetchType", .str "EAGER"),
           ("relation", .str "OneToMany")])
    "orders" "Order" "ORDER" "EAGER" "Orders" (.str "OneToMany")
    rfl rfl rfl rfl rfl rfl rfl

/-- A class whose only member is a METHOD named `customer`; it has no field
of that name. -/
def methodOnlyClass : TypeDecl :=
  ⟨true, "Account",
   [.method { annots := [], modifiers := [.PUBLIC], retType := "Customer",
              name := "customer", params := [], body := .returnThisField "customer" }]⟩

/-- Counterexample to C3 as stated: the type already declares a member
named `customer` (a method), yet the descriptor named `customer` is not
skipped — three new members are synthesized and the skipped-existing list
stays empty, because the check consults `getFieldByName`, which looks at
fields only. -/
theorem skip_counterexample :
    processDescriptor (methodOnlyClass, []) descCustomer =
      .ok (⟨true, "Account", methodOnlyClass.members ++ customerMembers⟩, []) ∧
    (⟨true, "Account", methodOnlyClass.members ++ customerMembers⟩ : TypeDecl) ≠
      methodOnlyClass :=
  ⟨rfl, by decide⟩

/-- C3 amended. Skip-on-existing-field: when the type already declares a
FIELD named `X` (case-sensitive exact match), a descriptor named `X`
yields zero new members and `X` is recorded in the skipped-existing list;
members that are not fields (methods, constructors, ...) are not
consulted by the check. -/
theorem skip_on_existing_field (st : TypeDecl × List String) (obj : JSON) (n t : String)
    (hn : pyGetStr obj "name" = .ok n) (ht : pyGetStr obj "type" = .ok t)
    (hf : (getFieldByName st.1 n).isSome) :
    processDescriptor st obj = .ok (st.1, st.2 ++ [n]) :=
  processDescriptor_skip obj st.2 hn ht hf

/-- A class that declares a field named `customer`. -/
def fieldClass : TypeDecl :=
  ⟨true, "Account",
   [.field { modifiers := [.PRIVATE], annots := [], fieldType := "Customer",
             name := "customer" }]⟩

/-- Witness for C3: on `fieldClass` the `customer` descriptor is skipped
and recorded. -/
theorem skip_on_existing_field_witness :
    processDescriptor (fieldClass, []) descCustomer = .ok (fieldClass, [] ++ ["customer"]) :=
  skip_on_existing_field (fieldClass, []) descCustomer "customer" "Customer" rfl rfl rfl

theorem addMissingImports_count_notin :
    ∀ (l : List String) (cu : CompilationUnit) (imp : String), imp ∉ l →
    (addMissingImports cu l).imports.count imp = cu.imports.count imp
  | [], _, _, _ => rfl
  | i :: rest, cu, imp, hnot => by
    have hne : imp ≠ i := fun h => hnot (h ▸ List.mem_cons_self i rest)
    have hrest : imp ∉ rest := fun h => hnot (List.mem_cons_of_mem i h)
    unfold addMissingImports
    split
    · exact addMissingImports_count_notin rest cu imp hrest
    · rw [addMissingImports_count_notin rest _ imp hrest]
      simp [List.count_append, List.count_singleton, hne]

theorem addMissingImports_count_one :
    ∀ (l : List String) (cu : CompilationUnit) (imp : String), l.Nodup → imp ∈ l →
    cu.imports.count imp ≤ 1 →
    (addMissingImports cu l).imports.count imp = 1
  | [], _, _, _, hmem, _ => by simp at hmem
  | i :: rest, cu, imp, hnd, hmem, hle => by
    obtain ⟨hnotin, hnd'⟩ := List.nodup_cons.mp hnd
    unfold addMissingImports
    rcases List.mem_cons.mp hmem with rfl | hmem'
    · split
      · rename_i hc
        rw [addMissingImports_count_notin rest cu imp hnotin]
        have hmemcu : imp ∈ cu.imports := by simpa using hc
        have := List.count_pos_iff.mpr hmemcu
        omega
      · rename_i hc
        rw [addMissingImports_count_notin rest _ imp hnotin]
        have hnotcu : imp ∉ cu.imports := by simpa using hc
        have h0 : cu.imports.count imp = 0 := List.count_eq_zero.mpr hnotcu
        simp [List.count_append, h0]
    · have hne : imp ≠ i := fun h => hnotin (h ▸ hmem')
      split
      · exact addMissingImports_count_one rest cu imp hnd' hmem' hle
      · refine addMissingImports_count_one rest _ imp hnd' hmem' ?_
        simpa [List.count_append, List.count_singleton, hne] using hle

/-- The `Account` unit with a pre-duplicated `java.util.List` import. -/
def dupImportCU : CompilationUnit :=
  ⟨["java.util.List", "java.util.List"], [accountClass]⟩

/-- `dupImportCU` after augmentation: the duplicate survives. -/
def dupImportAugCU : CompilationUnit :=
  ⟨["java.util.List", "java.util.List",
    "com.sc.banking.common.annotation.RelatedObject",
    "com.sc.banking.common.enums.ObjectType",
    "com.sc.banking.common.enums.FetchType",
    "com.fasterxml.jackson.annotation.JsonIgnore"],
   [⟨true, "Account", [.other "existing"] ++ customerMembers⟩]⟩

/-- Counterexample to C7 as stated: a source file whose import list already
contains `java.util.List` twice is augmented (adding three members), yet
the support import `java.util.List` appears twice — not exactly once — in
the output; deduplication only guards the additions. -/
theorem import_completion_counterexample :
    applyRelated dupImportCU roCustomer = .ok (dupImportAugCU, []) ∧
    dupImportAugCU.imports.count "java.util.List" = 2 ∧
    dupImportAugCU.types ≠ dupImportCU.types :=
  ⟨rfl, rfl, by decide⟩

/-- C7 amended. Import completion: after a successful augmentation that
adds at least one member, each of the five support imports occurs exactly
once in the output, provided it occurred at most once in the input;
pre-existing imports keep their relative positions (the old import list
is a prefix of the new one) and missing support imports are appended
without introducing duplicates. -/
theorem import_completion (cu : CompilationUnit) (ro : JSON)
    (out : CompilationUnit × List String) (h : applyRelated cu ro = .ok out)
    (_hmem : cu.types ≠ out.1.types)
    (hdup : ∀ imp ∈ imports_to_add, cu.imports.count imp ≤ 1) :
    (∀ imp ∈ imports_to_add, out.1.imports.count imp = 1) ∧
    ∃ extra, out.1.imports = cu.imports ++ extra := by
  obtain ⟨mc, rest, objs, st, htypes, hclass, hiter, hall, hout⟩ := applyRelated_ok_elim h
  have himp : out.1.imports = (addMissingImports cu imports_to_add).imports := by
    rw [hout]
  constructor
  · intro imp himem
    rw [himp]
    exact addMissingImports_count_one imports_to_add cu imp (by decide) himem (hdup imp himem)
  · obtain ⟨extra, he⟩ := addMissingImports_extends imports_to_add cu
    exact ⟨extra, by rw [himp, he]⟩

/-- Witness for C7 at the concrete `Account` run (no duplicates in the
input, one member-adding descriptor). -/
theorem import_completion_witness :
    applyRelated accountCU roCustomer = .ok (augmentedAccountCU, []) ∧
    ((∀ imp ∈ imports_to_add, (augmentedAccountCU, ([] : List String)).1.imports.count imp = 1) ∧
     ∃ extra, (augmentedAccountCU, ([] : List String)).1.imports = accountCU.imports ++ extra) :=
  ⟨rfl, import_completion accountCU roCustomer (augmentedAccountCU, []) rfl
    (by decide) (by decide)⟩

/-! ## Driver-level instances -/

/-- A concrete configuration. -/
def cfgEx : Config := ⟨"out", "com.m"⟩

/-- The parsed `Billing.java`. -/
def billingCU : CompilationUnit := ⟨[], [⟨true, "Billing", []⟩]⟩

/-- A filesystem holding only `Billing.java`; the `Absent` schema's file
does not exist. -/
def fsBilling : FS :=
  [("out/src/main/java/com/m/Billing.java", .raw "class Billing" (some billingCU))]

/-- A spec declaring two schemas with the extension: `Absent` (file
missing on disk) first, then `Billing`. -/
def specTwo : SpecFile :=
  .parsed (.obj [("components", .obj [("schemas", .obj
    [("Absent", .obj [("x-related-objects", roCustomer)]),
     ("Billing", .obj [("x-related-objects", roCustomer)])])])])

/-- `Billing.java` after augmentation with `roCustomer`. -/
def fsBillingAug : FS :=
  [("out/src/main/java/com/m/Billing.java",
    .printed ⟨imports_to_add, [⟨true, "Billing", customerMembers⟩]⟩)]

/-- Counterexample to C2 as stated: with schemas `Absent` (file missing)
and `Billing` (file present and augmentable), the run stops at the
`FileNotFound` of the first schema: the result carries that error and
`Billing.java` is left untouched, although processing it alone would have
rewritten it. -/
theorem driver_isolation_counterexample :
    mainRun cfgEx specTwo fsBilling =
      (fsBilling, some (.fileNotFound "out/src/main/java/com/m/Absent.java")) ∧
    update_java_file fsBilling "out/src/main/java/com/m/Billing.java" roCustomer =
      .ok fsBillingAug ∧
    fsBillingAug ≠ fsBilling :=
  ⟨rfl, rfl, by decide⟩

/-- C2 amended. The driver does not isolate per-schema failures:
`update_java_file` prints and re-raises, and `main` has no per-schema
handler, so after any error-free prefix of schemas, the first failing
schema's exception aborts the run — the result is that single error, the
filesystem stays as the prefix left it, and the remaining schemas (an
arbitrary `rest`) are never processed. -/
theorem driver_abort_on_failure (cfg : Config) :
    ∀ (pre : List (String × JSON)) (fs fs₁ : FS) (s : String) (d : JSON)
      (rest : List (String × JSON)) (ro : JSON) (e : PyErr),
    runSchemas cfg fs pre = (fs₁, none) →
    pyGetItem d "x-related-objects" = .ok ro →
    update_java_file fs₁ (get_java_file_path cfg s) ro = .error e →
    runSchemas cfg fs (pre ++ (s, d) :: rest) = (fs₁, some e)
  | [], fs, fs₁, s, d, rest, ro, e, hpre, hro, herr => by
    unfold runSchemas at hpre
    rw [Prod.mk.injEq] at hpre
    cases hpre.1
    simp [runSchemas, hro, herr]
  | (s₀, d₀) :: pre', fs, fs₁, s, d, rest, ro, e, hpre, hro, herr => by
    unfold runSchemas at hpre
    split at hpre
    · rw [Prod.mk.injEq] at hpre
      simp at hpre
    rename_i ro₀ hro₀
    split at hpre
    · rw [Prod.mk.injEq] at hpre
      simp at hpre
    rename_i fs₂ hupd
    have ih := driver_abort_on_failure cfg pre' fs₂ fs₁ s d rest ro e hpre hro herr
    simpa [runSchemas, hro₀, hupd] using ih

/-- Witness for C2's amended theorem: `Billing` processes cleanly, then
`Absent` raises `FileNotFound` and the run stops there. -/
theorem driver_abort_on_failure_witness :
    runSchemas cfgEx fsBilling
      ([("Billing", .obj [("x-related-objects", roCustomer)])] ++
        [("Absent", .obj [("x-related-objects", roCustomer)])]) =
      (fsBillingAug, some (.fileNotFound "out/src/main/java/com/m/Absent.java")) :=
  driver_abort_on_failure cfgEx
    [("Billing", .obj [("x-related-objects", roCustomer)])]
    fsBilling fsBillingAug "Absent" (.obj [("x-related-objects", roCustomer)])
    [] roCustomer (.fileNotFound "out/src/main/java/com/m/Absent.java")
    rfl rfl rfl

/-- A raw descriptor with no `name` key. -/
def descNoName : JSON :=
  .obj [("type", .str "Customer"), ("objectType", .str "CUSTOMER"),
        ("fetchType", .str "LAZY")]

/-- The parsed `Deposit.java`. -/
def depositCU : CompilationUnit := ⟨[], [⟨true, "Deposit", []⟩]⟩

/-- Both `Billing.java` and `Deposit.java` exist and parse. -/
def fsTwoFiles : FS :=
  [("out/src/main/java/com/m/Billing.java", .raw "class Billing" (some billingCU)),
   ("out/src/main/java/com/m/Deposit.java", .raw "class Deposit" (some depositCU))]

/-- A spec whose first schema carries a nameless descriptor and whose
second schema is well-formed. -/
def specBadDescriptor : SpecFile :=
  .parsed (.obj [("components", .obj [("schemas", .obj
    [("Billing", .obj [("x-related-objects", .arr [descNoName])]),
     ("Deposit", .obj [("x-related-objects", roCustomer)])])])])

/-- `fsTwoFiles` after augmenting only `Deposit.java`. -/
def fsTwoFilesDepositAug : FS :=
  [("out/src/main/java/com/m/Billing.java", .raw "class Billing" (some billingCU)),
   ("out/src/main/java/com/m/Deposit.java",
    .printed ⟨imports_to_add, [⟨true, "Deposit", customerMembers⟩]⟩)]

/-- Counterexample to C9 as stated: a descriptor whose `name` is missing
raises `KeyError('name')` — there is no `InvalidDescriptor` validation —
and the error is not recorded per item: it aborts the run, leaving the
well-formed `Deposit` schema unprocessed even though processing it alone
would have rewritten its file. -/
theorem descriptor_validation_counterexample :
    mainRun cfgEx specBadDescriptor fsTwoFiles = (fsTwoFiles, some (.keyError "name")) ∧
    update_java_file fsTwoFiles "out/src/main/java/com/m/Deposit.java" roCustomer =
      .ok fsTwoFilesDepositAug ∧
    fsTwoFilesDepositAug ≠ fsTwoFiles :=
  ⟨rfl, rfl, by decide⟩

/-- C9 amended. There is no dedicated descriptor validation in the script:
a raw entry whose `name` (resp. `type`) key is missing raises
`KeyError('name')` (resp. `KeyError('type')`), which propagates and
aborts the run rather than being recorded per item; a present-but-empty
`name` passes the script's lookups and, when no field of that name
exists, is rejected by the parser library itself — `addField` (line 132)
builds `SimpleName("")`, whose `assertNonEmpty` identifier check throws
`AssertionError` before `objectType`/`fetchType` are read. -/
theorem descriptor_validation (st : TypeDecl × List String)
    (fields : List (String × JSON)) :
    (fields.lookup "name" = none →
      processDescriptor st (.obj fields) = .error (.keyError "name")) ∧
    (∀ n, fields.lookup "name" = some (.str n) → fields.lookup "type" = none →
      processDescriptor st (.obj fields) = .error (.keyError "type")) ∧
    (∀ t, fields.lookup "name" = some (.str "") →
      pyGetStr (.obj fields) "type" = .ok t →
      getFieldByName st.1 "" = none →
      processDescriptor st (.obj fields) = .error .assertionError) := by
  refine ⟨?_, ?_, ?_⟩
  · intro hname
    simp [processDescriptor, pyGetStr, pyGetItem, hname]
  · intro n hname htype
    simp [processDescriptor, pyGetStr, pyGetItem, hname, htype]
  · intro t hname htype hf
    have hnameStr : pyGetStr (.obj fields) "name" = .ok "" := by
      simp [pyGetStr, pyGetItem, hname]
    obtain ⟨rv, hrel⟩ := pyDictGet_obj_ok fields "relation" (.str "OneToOne")
    simp [processDescriptor, hnameStr, htype, hrel, hf]

/-- Witness for C9's amended theorem at concrete descriptors; the
empty-name entry fails with the library's `AssertionError` even though
its `objectType`/`fetchType` keys are absent. -/
theorem descriptor_validation_witness :
    processDescriptor (accountClass, []) (.obj [("type", .str "Customer")]) =
      .error (.keyError "name") ∧
    processDescriptor (accountClass, [])
      (.obj [("name", .str "x")]) = .error (.keyError "type") ∧
    processDescriptor (accountClass, [])
      (.obj [("name", .str ""), ("type", .str "T")]) = .error .assertionError :=
  ⟨(descriptor_validation (accountClass, []) [("type", .str "Customer")]).1 rfl,
   (descriptor_validation (accountClass, []) [("name", .str "x")]).2.1 "x" rfl rfl,
   (descriptor_validation (accountClass, [])
     [("name", .str ""), ("type", .str "T")]).2.2 "T" rfl rfl rfl⟩

theorem scanSchemas_all_false :
    ∀ (entries acc : List (String × JSON)),
    (∀ p ∈ entries, pyContains "x-related-objects" p.2 = .ok false) →
    scanSchemas entries acc = .ok acc
  | [], _, _ => rfl
  | (nm, sd) :: rest, acc, hyp => by
    have h1 := hyp (nm, sd) (List.mem_cons_self _ _)
    unfold scanSchemas
    rw [h1]
    exact scanSchemas_all_false rest acc (fun p hp => hyp p (List.mem_cons_of_mem _ hp))

theorem scanSchemas_mem :
    ∀ (entries acc out : List (String × JSON)),
    scanSchemas entries acc = .ok out →
    ∀ nm v, (nm, v) ∈ out → (nm, v) ∈ acc ∨
      ∃ sd raw, (nm, sd) ∈ entries ∧ pyGetItem sd "x-related-objects" = .ok raw ∧
        v = .obj [("x-related-objects", raw)]
  | [], acc, out, h, nm, v, hmem => by
    unfold scanSchemas at h
    rw [Except.ok.injEq] at h
    rw [← h] at hmem
    exact Or.inl hmem
  | (nm₀, sd₀) :: rest, acc, out, h, nm, v, hmem => by
    unfold scanSchemas at h
    split at h
    · simp at h
    · rcases scanSchemas_mem rest acc out h nm v hmem with hacc | ⟨sd, raw, hsd, hraw, hv⟩
      · exact Or.inl hacc
      · exact Or.inr ⟨sd, raw, List.mem_cons_of_mem _ hsd, hraw, hv⟩
    · split at h
      · simp at h
      rename_i hcont raw₀ hraw₀
      rcases scanSchemas_mem rest _ out h nm v hmem with hacc | ⟨sd, raw, hsd, hraw, hv⟩
      · rcases List.mem_append.mp hacc with h1 | h2
        · exact Or.inl h1
        · simp only [List.mem_singleton, Prod.mk.injEq] at h2
          refine Or.inr ⟨sd₀, raw₀, ?_, hraw₀, h2.2⟩
          rw [h2.1]
          exact List.mem_cons_self _ _
      · exact Or.inr ⟨sd, raw, List.mem_cons_of_mem _ hsd, hraw, hv⟩

/-- C8. Scanner contract: scanning fails (returns the `None` failure
marker) when the document does not parse as JSON, and when
`components.schemas` is present but not a mapping; a parsed document in
which no schema entry contains the extension key yields the empty mapping
rather than a failure; and every entry of a successful scan pairs a
schema name from `components.schemas` with its raw `x-related-objects`
value, unchanged, under the single-key wrapper the code builds. -/
theorem scanner_contract :
    (find_schemas_with_related_objects .malformed = none) ∧
    (∀ (specFields compFields : List (String × JSON)) (sv : JSON),
      specFields.lookup "components" = some (.obj compFields) →
      compFields.lookup "schemas" = some sv →
      (∀ entries, sv ≠ .obj entries) →
      find_schemas_with_related_objects (.parsed (.obj specFields)) = none) ∧
    (∀ (spec comps schemas : JSON) (entries : List (String × JSON)),
      pyDictGet spec "components" (.obj []) = .ok comps →
      pyDictGet comps "schemas" (.obj []) = .ok schemas →
      pyItems schemas = .ok entries →
      (∀ p ∈ entries, pyContains "x-related-objects" p.2 = .ok false) →
      find_schemas_with_related_objects (.parsed spec) = some []) ∧
    (∀ (spec comps schemas : JSON) (entries m : List (String × JSON)),
      pyDictGet spec "components" (.obj []) = .ok comps →
      pyDictGet comps "schemas" (.obj []) = .ok schemas →
      pyItems schemas = .ok entries →
      find_schemas_with_related_objects (.parsed spec) = some m →
      ∀ nm v, (nm, v) ∈ m →
        ∃ sd raw, (nm, sd) ∈ entries ∧ pyGetItem sd "x-related-objects" = .ok raw ∧
          v = .obj [("x-related-objects", raw)]) := by
  refine ⟨rfl, ?_, ?_, ?_⟩
  · intro specFields compFields sv h1 h2 hno
    have hc : pyDictGet (.obj specFields) "components" (.obj []) = .ok (.obj compFields) := by
      simp [pyDictGet, h1]
    have hs : pyDictGet (.obj compFields) "schemas" (.obj []) = .ok sv := by
      simp [pyDictGet, h2]
    have hitems : ∃ e, pyItems sv = .error e := by
      cases sv <;> first
        | exact absurd rfl (hno _)
        | exact ⟨_, rfl⟩
    obtain ⟨e, he⟩ := hitems
    simp [find_schemas_with_related_objects, scanCore, hc, hs, he]
  · intro spec comps schemas entries h1 h2 h3 hall
    simp [find_schemas_with_related_objects, scanCore, h1, h2, h3,
      scanSchemas_all_false entries [] hall]
  · intro spec comps schemas entries m h1 h2 h3 hm nm v hmem
    simp only [find_schemas_with_related_objects, scanCore, h1, h2, h3] at hm
    split at hm
    · rename_i out hscan
      rw [Option.some.injEq] at hm
      rw [← hm] at hmem
      rcases scanSchemas_mem entries [] out hscan nm v hmem with habs | hgood
      · simp at habs
      · exact hgood
    · simp at hm

/-- Witness for C8: each part of the scanner contract applied at a
concrete document. -/
theorem scanner_contract_witness :
    find_schemas_with_related_objects .malformed = none ∧
    find_schemas_with_related_objects
      (.parsed (.obj [("components", .obj [("schemas", .str "oops")])])) = none ∧
    find_schemas_with_related_objects
      (.parsed (.obj [("components", .obj [("schemas",
        .obj [("Account", .obj [("title", .str "A")])])])])) = some [] ∧
    (∃ sd raw,
      ("Absent", sd) ∈
        [("Absent", JSON.obj [("x-related-objects", roCustomer)]),
         ("Billing", JSON.obj [("x-related-objects", roCustomer)])] ∧
      pyGetItem sd "x-related-objects" = .ok raw ∧
      JSON.obj [("x-related-objects", roCustomer)] =
        .obj [("x-related-objects", raw)]) :=
  ⟨scanner_contract.1,
   scanner_contract.2.1 [("components", .obj [("schemas", .str "oops")])]
     [("schemas", .str "oops")] (.str "oops") rfl rfl
     (fun entries h => JSON.noConfusion h),
   scanner_contract.2.2.1
     (.obj [("components", .obj [("schemas",
       .obj [("Account", .obj [("title", .str "A")])])])])
     (.obj [("schemas", .obj [("Account", .obj [("title", .str "A")])])])
     (.obj [("Account", .obj [("title", .str "A")])])
     [("Account", .obj [("title", .str "A")])]
     rfl rfl rfl
     (by
       intro p hp
       rw [List.mem_singleton.mp hp]
       rfl),
   scanner_contract.2.2.2
     (.obj [("components", .obj [("schemas", .obj
       [("Absent", .obj [("x-related-objects", roCustomer)]),
        ("Billing", .obj [("x-related-objects", roCustomer)])])])])
     (.obj [("schemas", .obj
       [("Absent", .obj [("x-related-objects", roCustomer)]),
        ("Billing", .obj [("x-related-objects", roCustomer)])])])
     (.obj [("Absent", .obj [("x-related-objects", roCustomer)]),
            ("Billing", .obj [("x-related-objects", roCustomer)])])
     [("Absent", .obj [("x-related-objects", roCustomer)]),
      ("Billing", .obj [("x-related-objects", roCustomer)])]
     [("Absent", .obj [("x-related-objects", roCustomer)]),
      ("Billing", .obj [("x-related-objects", roCustomer)])]
     rfl rfl rfl rfl
     "Absent" (.obj [("x-related-objects", roCustomer)])
     (List.mem_cons_self _ _)⟩

/-- C10. `update_java_file` rewrites the target file unconditionally on
success: when every descriptor is skipped (each name already names a
field) so zero members are added, the parsed tree — with only the support
imports ensured — is still re-serialized through the structural
pretty-printer and written back. The on-disk entry becomes the printer's
rendering of the tree (`printed`), no longer the original raw byte
content `t`, which does not occur in the written value at all. -/
theorem update_rewrites_on_noop (fs : FS) (p : String) (ro : JSON) (t : String)
    (cu : CompilationUnit) (mc : TypeDecl) (rest : List TypeDecl) (objs : List JSON)
    (hget : fsGet fs p = some (.raw t (some cu)))
    (htypes : cu.types = mc :: rest)
    (hclass : mc.isClassOrInterface = true)
    (hiter : pyIter ro = .ok objs)
    (hskip : ∀ obj ∈ objs, ∃ n ty, pyGetStr obj "name" = .ok n ∧
      pyGetStr obj "type" = .ok ty ∧ (getFieldByName mc n).isSome) :
    update_java_file fs p ro =
      .ok (fsSet fs p (.printed (addMissingImports cu imports_to_add))) := by
  obtain ⟨sk, hall⟩ := processAll_skip_all objs mc [] hskip
  have htypes' : (addMissingImports cu imports_to_add).types = mc :: rest := by
    rw [addMissingImports_types]; exact htypes
  have happly := applyRelated_intro cu ro mc rest objs (mc, [] ++ sk)
    htypes' hclass hiter hall
  have heta : ({ addMissingImports cu imports_to_add with
      types := mc :: rest } : CompilationUnit) = addMissingImports cu imports_to_add :=
    CompilationUnit_eta htypes'
  simp only [update_java_file, hget, happly, heta]

/-- A unit that already has all five support imports and a `customer`
field: augmenting it with `roCustomer` changes nothing in the tree. -/
def noopCU : CompilationUnit := ⟨imports_to_add, [fieldClass]⟩

/-- `noopCU` on disk as raw text with its own formatting. -/
def noopFS : FS := [("Account.java", .raw "original   formatting" (some noopCU))]

/-- Witness for C10: the all-skipped pass writes `printed noopCU` over the
raw entry, although no member and no import was added. -/
theorem update_rewrites_on_noop_witness :
    update_java_file noopFS "Account.java" roCustomer =
      .ok (fsSet noopFS "Account.java"
        (.printed (addMissingImports noopCU imports_to_add))) ∧
    fsSet noopFS "Account.java" (.printed (addMissingImports noopCU imports_to_add)) =
      [("Account.java", .printed noopCU)] :=
  ⟨update_rewrites_on_noop noopFS "Account.java" roCustomer "original   formatting"
    noopCU fieldClass [] [descCustomer] rfl rfl rfl rfl
    (by
      intro obj hmem
      rw [List.mem_singleton.mp hmem]
      exact ⟨"customer", "Customer", rfl, rfl, rfl⟩),
   rfl⟩
